import Mathlib

/-!
Shallow embedding of the mymories repository (scan_bubbles.py, start_server.py)
and verification of its specification claims.

Modelling conventions:
* JSON scalar values are modelled by `JValue`; a parsed config.json is an
  association list `List (String × JValue)` (Python dict lookup by key).
* A bubble folder is a `Folder`: its name, the state of its config.json
  (absent / JSON decode error / parsed), and the list of file names present
  inside the folder (used by `os.path.exists` on photo candidates).
* Python `re.match` with the pattern for `\d` is modelled with ASCII digits.
* Python float arithmetic in `calculate_positions` is modelled exactly over ℚ.
* Printing is modelled by returning the list of printed lines; quotation marks
  and interpolated exception texts inside messages are elided.
-/

/-- JSON scalar value as loaded by Python json.load (objects and arrays are not
needed by any claim; a nested value would behave like the other non-string
cases everywhere the code inspects values). -/
inductive JValue where
  | str (s : String)
  | bool (b : Bool)
  | num (n : Int)
  | null
  deriving DecidableEq, Repr

/-- Python truthiness of a JSON scalar, as used by `if config.get('photo'):`. -/
def JValue.truthy : JValue → Bool
  | .str s => s ≠ ""
  | .bool b => b
  | .num n => n ≠ 0
  | .null => false

/-- Rendering of a value inside a printed message (Python str()). -/
def JValue.pyStr : JValue → String
  | .str s => s
  | .bool b => if b then "True" else "False"
  | .num n => toString n
  | .null => "None"

/-- State of the config.json file of a folder: missing, present but not valid
JSON (json.load raises JSONDecodeError), or parsed to a dict. -/
inductive ConfigFile where
  | absent
  | parseError
  | parsed (c : List (String × JValue))
  deriving DecidableEq, Repr

/-- One directory entry of the bubbles folder: its name, its config.json state
and the names of the files present inside it. -/
structure Folder where
  name : String
  config : ConfigFile
  files : List String
  deriving DecidableEq, Repr

/-- Model of re.match with the anchored pattern of four digits, dash, two
digits, dash, two digits, letter T, then three dash-separated pairs of digits
(scan_bubbles.py line 37); `\d` is modelled as an ASCII digit. -/
def matchesNamePattern (s : String) : Bool :=
  match s.toList with
  | [c0, c1, c2, c3, c4, c5, c6, c7, c8, c9, c10, c11, c12, c13, c14, c15, c16, c17, c18] =>
      c0.isDigit && c1.isDigit && c2.isDigit && c3.isDigit && c4 == '-' &&
      c5.isDigit && c6.isDigit && c7 == '-' && c8.isDigit && c9.isDigit &&
      c10 == 'T' && c11.isDigit && c12.isDigit && c13 == '-' &&
      c14.isDigit && c15.isDigit && c16 == '-' && c17.isDigit && c18.isDigit
  | _ => false

/-- Numeric value of an ASCII digit character. -/
def digitVal (c : Char) : Nat := c.toNat - 48

/-- Gregorian leap year rule used by datetime. -/
def isLeapYear (y : Nat) : Bool := (y % 4 == 0 && y % 100 != 0) || (y % 400 == 0)

/-- Number of days of a month, as validated by datetime. -/
def daysInMonth (y m : Nat) : Nat :=
  if m == 2 then (if isLeapYear y then 29 else 28)
  else if m == 4 || m == 6 || m == 9 || m == 11 then 30
  else 31

/-- Value of a Python datetime at second precision. -/
structure DateTime where
  year : Nat
  month : Nat
  day : Nat
  hour : Nat
  minute : Nat
  second : Nat
  deriving DecidableEq, Repr

/-- Model of `datetime.strptime(date_str, '%Y/%m/%d %H/%M/%S')` applied to the
folder name after `replace('T', ' ').replace('-', '/')` (scan_bubbles.py lines
58-60): extracts the six two-or-four digit components at their fixed positions
and yields none exactly when datetime raises ValueError (component out of
range; year 0 is below datetime.MINYEAR; seconds 60 and 61 pass the strptime
regex but the datetime constructor rejects them with the same ValueError). -/
def parseFolderDate (s : String) : Option DateTime :=
  match s.toList with
  | [c0, c1, c2, c3, _, c5, c6, _, c8, c9, _, c11, c12, _, c14, c15, _, c17, c18] =>
      let y := 1000 * digitVal c0 + 100 * digitVal c1 + 10 * digitVal c2 + digitVal c3
      let mo := 10 * digitVal c5 + digitVal c6
      let d := 10 * digitVal c8 + digitVal c9
      let h := 10 * digitVal c11 + digitVal c12
      let mi := 10 * digitVal c14 + digitVal c15
      let sec := 10 * digitVal c17 + digitVal c18
      if 1 ≤ y ∧ 1 ≤ mo ∧ mo ≤ 12 ∧ 1 ≤ d ∧ d ≤ daysInMonth y mo ∧
          h ≤ 23 ∧ mi ≤ 59 ∧ sec ≤ 59 then
        some ⟨y, mo, d, h, mi, sec⟩
      else
        none
  | _ => none

/-- Two-digit zero padding. -/
def pad2 (n : Nat) : String := if n < 10 then "0" ++ toString n else toString n

/-- Four-digit zero padding. -/
def pad4 (n : Nat) : String :=
  if n < 10 then "000" ++ toString n
  else if n < 100 then "00" ++ toString n
  else if n < 1000 then "0" ++ toString n
  else toString n

/-- Model of datetime.isoformat() for a microsecond-free datetime. -/
def DateTime.isoformat (d : DateTime) : String :=
  pad4 d.year ++ "-" ++ pad2 d.month ++ "-" ++ pad2 d.day ++ "T" ++
    pad2 d.hour ++ ":" ++ pad2 d.minute ++ ":" ++ pad2 d.second

/-- Extension list of the photo auto-detection (scan_bubbles.py line 79). -/
def photo_extensions : List String :=
  [".jpg", ".JPG", ".jpeg", ".JPEG", ".png", ".PNG", ".gif", ".GIF", ".webp", ".WEBP"]

/-- Base name list of the photo auto-detection (scan_bubbles.py line 84). -/
def possible_names : List String := ["photo", "image", "img", "picture", "pic"]

/-- Candidate file names in search order: the extension loop is outer, the
name loop inner, both break at the first existing candidate. -/
def photoCandidates : List String :=
  photo_extensions.flatMap (fun ext => possible_names.map (fun n => n ++ ext))

/-- Auto-detection of a photo file (scan_bubbles.py lines 78-92): the first
candidate that exists in the folder. -/
def autoDetectPhoto (files : List String) : Option String :=
  photoCandidates.find? (fun cand => files.contains cand)

/-- One output record. The structure has exactly the twelve fields of the
bubble_data dict built at scan_bubbles.py lines 101-114. -/
structure Bubble where
  id : String
  title : JValue
  description : JValue
  location : JValue
  photo : Option String
  date : String
  folderName : String
  hasPhoto : Bool
  rawDate : String
  size : Nat
  x : ℚ
  y : ℚ
  deriving DecidableEq, Repr

/-- Required-field validation (scan_bubbles.py lines 52-53): every required
key is present in the dict; the value is not inspected. -/
def requiredFieldsPresent (config : List (String × JValue)) : Bool :=
  ["title", "description", "has_photo"].all (fun field => (config.lookup field).isSome)

/-- Test guarding all photo handling (scan_bubbles.py lines 67 and 109):
`config.get('has_photo') == 'True'`, a comparison with the string True. -/
def hasPhotoTrue (config : List (String × JValue)) : Bool :=
  (config.lookup "has_photo").getD .null == .str "True"

/-- Photo resolution of scan_bubbles.py lines 66-98, producing the photo_path
and the printed lines. `os.path.join(folder_path, config['photo'])` raises
TypeError when the photo value is a truthy non-string; that exception escapes
to the generic handler at line 121, modelled by the error case. -/
def photoStep (f : Folder) (config : List (String × JValue)) :
    Except String (Option String × List String) :=
  if hasPhotoTrue config then
    let v := (config.lookup "photo").getD .null
    if v.truthy then
      match v with
      | .str p =>
          if f.files.contains p then
            .ok (some ("bubbles/" ++ f.name ++ "/" ++ p), [])
          else
            .ok (some ("bubbles/" ++ f.name ++ "/" ++ p),
              ["WARNING: Photo " ++ p ++ " not found in " ++ f.name])
      | _ => .error ("ERROR: Error processing " ++ f.name)
    else
      match autoDetectPhoto f.files with
      | some found =>
          .ok (some ("bubbles/" ++ f.name ++ "/" ++ found),
            ["INFO: Auto-detected photo " ++ found ++ " in " ++ f.name])
      | none =>
          .ok (none, ["WARNING: No photo found in " ++ f.name ++ " despite has_photo=True"])
  else
    .ok (none, [])

/-- Outcome of one iteration of the folder loop: either a record is appended,
or the folder contributes nothing; both carry the printed lines. -/
inductive FolderResult where
  | accepted (b : Bubble) (logs : List String)
  | rejected (logs : List String)
  deriving DecidableEq, Repr

/-- Body of the folder loop (scan_bubbles.py lines 32-122) for one folder.
`numSoFar` is `len(bubbles)` at entry, used only for the id. The checks run
in source order: name pattern, config.json existence, JSON parse, required
fields, date parse, then photo resolution and record assembly. -/
def processFolder (numSoFar : Nat) (f : Folder) : FolderResult :=
  if ¬ matchesNamePattern f.name then
    .rejected ["WARNING: Skipping " ++ f.name ++ " - invalid format"]
  else
    match f.config with
    | .absent => .rejected ["WARNING: Skipping " ++ f.name ++ " - no config.json found"]
    | .parseError => .rejected ["ERROR: Error parsing config.json in " ++ f.name]
    | .parsed config =>
      if ¬ requiredFieldsPresent config then
        .rejected ["WARNING: Skipping " ++ f.name ++ " - missing required fields"]
      else
        match parseFolderDate f.name with
        | none => .rejected ["WARNING: Skipping " ++ f.name ++ " - invalid date format"]
        | some parsed_date =>
          match photoStep f config with
          | .error msg => .rejected [msg]
          | .ok (photo_path, photoLogs) =>
            .accepted
              { id := "bubble-" ++ toString numSoFar
                title := (config.lookup "title").getD .null
                description := (config.lookup "description").getD .null
                location := (config.lookup "location").getD (.str "")
                photo := photo_path
                date := f.name
                folderName := f.name
                hasPhoto := hasPhotoTrue config
                rawDate := parsed_date.isoformat
                size := 150
                x := 0
                y := 50 }
              (photoLogs ++
                ["SUCCESS: Added " ++ f.name ++ " - " ++
                  ((config.lookup "title").getD .null).pyStr])

/-- Stable insertion into a name-sorted list: the new folder goes after the
folders whose name is not greater. -/
def insertByName (f : Folder) : List Folder → List Folder
  | [] => [f]
  | g :: gs => if f.name < g.name then f :: g :: gs else g :: insertByName f gs

/-- Model of `folders.sort()` (scan_bubbles.py line 28): stable sort by the
lexicographic string order Python uses on folder names. -/
def sortByName (l : List Folder) : List Folder :=
  l.foldl (fun acc f => insertByName f acc) []

/-- Folder loop (scan_bubbles.py lines 32-122): processes the folders in
order, appending each accepted record to the accumulated list `bubbles`;
returns the final list and the printed lines. -/
def scanLoop (bubbles : List Bubble) : List Folder → List Bubble × List String
  | [] => (bubbles, [])
  | f :: fs =>
    match processFolder bubbles.length f with
    | .accepted b logs =>
        let r := scanLoop (bubbles ++ [b]) fs
        (r.1, logs ++ r.2)
    | .rejected logs =>
        let r := scanLoop bubbles fs
        (r.1, logs ++ r.2)

/-- scan_bubbles_folder (scan_bubbles.py lines 13-124). The argument is the
directory listing of the bubbles path: none when the path does not exist,
otherwise the list of sub-folders (os.listdir output restricted to
directories). Returns the records and the printed lines. -/
def scan_bubbles_folder (dir : Option (List Folder)) : List Bubble × List String :=
  match dir with
  | none => ([], ["ERROR: Bubbles folder not found!"])
  | some folders =>
      let sorted := sortByName folders
      let r := scanLoop [] sorted
      (r.1, ("Found " ++ toString sorted.length ++ " bubble folders:") :: r.2)

/-- calculate_positions (scan_bubbles.py lines 126-137): an empty list is
returned unchanged; otherwise record i gets
x = 10 + (i / max(1, n-1)) * 80. Python float arithmetic is modelled exactly
over ℚ. -/
def calculate_positions (bubbles : List Bubble) : List Bubble :=
  match bubbles with
  | [] => bubbles
  | _ =>
      bubbles.mapIdx (fun i b =>
        { b with x := 10 + ((i : ℚ) / ((max 1 (bubbles.length - 1) : Nat) : ℚ)) * 80 })

/-- Exception reaching the try of start_server. -/
inductive PyExn where
  | osError (errno : Int)
  | keyboardInterrupt
  deriving DecidableEq, Repr

/-- Abstract outcome of the server run inside the try block of start_server:
the TCPServer constructor raises OSError while binding, serve_forever is
interrupted from the keyboard, or the server keeps serving. -/
inductive ServerOutcome where
  | bindError (errno : Int)
  | interrupted
  | serving
  deriving DecidableEq, Repr

/-- Body of the try block (start_server.py lines 22-53): binding failure
propagates OSError, interruption propagates KeyboardInterrupt, otherwise the
banner is printed and serve_forever blocks (modelled by its printed lines). -/
def serverBody (outcome : ServerOutcome) : Except PyExn (List String) :=
  match outcome with
  | .bindError e => .error (.osError e)
  | .interrupted => .error .keyboardInterrupt
  | .serving => .ok ["Server running at: http://localhost:8000"]

/-- start_server (start_server.py lines 13-62): the except clauses turn both
exceptions into printed lines and fall through, so the function returns
normally; whatever value escapes uncaught would appear as an error result. -/
def start_server (outcome : ServerOutcome) : Except PyExn (List String) :=
  match serverBody outcome with
  | .ok logs => .ok logs
  | .error .keyboardInterrupt => .ok ["Server stopped. Goodbye!"]
  | .error (.osError e) =>
      if e == 98 then
        .ok ["ERROR: Port 8000 is already in use!",
          "   Try closing other applications or use a different port."]
      else
        .ok ["ERROR: Error starting server"]

/-! ### Helper development: the folder loop as a pure recursion -/

/-- Records produced by the folder loop when `k` records are already
accumulated (so the next accepted folder gets id bubble-k). -/
def scanRecords (k : Nat) : List Folder → List Bubble
  | [] => []
  | f :: fs =>
    match processFolder k f with
    | .accepted b _ => b :: scanRecords (k + 1) fs
    | .rejected _ => scanRecords k fs

/-- Whether a folder passes every check of the loop body; the outcome kind
does not depend on the number of records accumulated so far. -/
def folderAccepted (f : Folder) : Bool :=
  match processFolder 0 f with
  | .accepted _ _ => true
  | .rejected _ => false

theorem processFolder_eq_zero (n : Nat) (f : Folder) :
    processFolder n f =
      match processFolder 0 f with
      | .accepted b logs => .accepted { b with id := "bubble-" ++ toString n } logs
      | .rejected logs => .rejected logs := by
  by_cases hm : matchesNamePattern f.name = true
  · cases hc : f.config with
    | absent => simp [processFolder, hm, hc]
    | parseError => simp [processFolder, hm, hc]
    | parsed config =>
      by_cases hr : requiredFieldsPresent config = true
      · cases hd : parseFolderDate f.name with
        | none => simp [processFolder, hm, hc, hr, hd]
        | some d =>
          cases hp : photoStep f config with
          | error msg => simp [processFolder, hm, hc, hr, hd, hp]
          | ok pr =>
            obtain ⟨pp, plogs⟩ := pr
            simp [processFolder, hm, hc, hr, hd, hp]
      · simp [processFolder, hm, hc, hr]
  · simp [processFolder, hm]

theorem processFolder_rejected_indep {n : Nat} {f : Folder} {logs : List String}
    (h : processFolder n f = .rejected logs) (m : Nat) :
    processFolder m f = .rejected logs := by
  have hn := processFolder_eq_zero n f
  have hm2 := processFolder_eq_zero m f
  rw [hn] at h
  rw [hm2]
  cases h0 : processFolder 0 f <;> rw [h0] at h <;> simp_all

theorem folderAccepted_iff {f : Folder} (n : Nat) :
    folderAccepted f = true ↔ ∃ b logs, processFolder n f = .accepted b logs := by
  rw [folderAccepted, processFolder_eq_zero n f]
  cases h0 : processFolder 0 f <;> simp

/-- Inversion of an accepted loop iteration: every check passed and the
record is exactly the dict built at scan_bubbles.py lines 101-114. -/
theorem processFolder_accepted_inv {n : Nat} {f : Folder} {b : Bubble} {logs : List String}
    (h : processFolder n f = .accepted b logs) :
    matchesNamePattern f.name = true ∧
    ∃ config, f.config = .parsed config ∧ requiredFieldsPresent config = true ∧
    ∃ d, parseFolderDate f.name = some d ∧
    ∃ pp plogs, photoStep f config = .ok (pp, plogs) ∧
    b = { id := "bubble-" ++ toString n
          title := (config.lookup "title").getD .null
          description := (config.lookup "description").getD .null
          location := (config.lookup "location").getD (.str "")
          photo := pp
          date := f.name
          folderName := f.name
          hasPhoto := hasPhotoTrue config
          rawDate := d.isoformat
          size := 150
          x := 0
          y := 50 } ∧
    logs = plogs ++
      ["SUCCESS: Added " ++ f.name ++ " - " ++ ((config.lookup "title").getD .null).pyStr] := by
  by_cases hm : matchesNamePattern f.name = true
  · cases hc : f.config with
    | absent => simp [processFolder, hm, hc] at h
    | parseError => simp [processFolder, hm, hc] at h
    | parsed config =>
      by_cases hr : requiredFieldsPresent config = true
      · cases hd : parseFolderDate f.name with
        | none => simp [processFolder, hm, hc, hr, hd] at h
        | some d =>
          cases hp : photoStep f config with
          | error msg => simp [processFolder, hm, hc, hr, hd, hp] at h
          | ok pr =>
            obtain ⟨pp, plogs⟩ := pr
            simp only [processFolder, hm, hc, hr, hd, hp, if_true, not_true_eq_false,
              if_false, ite_false, ite_true, not_false_eq_true] at h
            refine ⟨hm, config, rfl, hr, d, rfl, pp, plogs, hp, ?_, ?_⟩
            · exact (FolderResult.accepted.inj h).1.symm
            · exact (FolderResult.accepted.inj h).2.symm
      · simp [processFolder, hm, hc, hr] at h
  · simp [processFolder, hm] at h

/-- Construction of an accepted loop iteration from the individual checks. -/
theorem processFolder_accepted_of {n : Nat} {f : Folder} {config : List (String × JValue)}
    {d : DateTime} {pp : Option String} {plogs : List String}
    (hm : matchesNamePattern f.name = true)
    (hc : f.config = .parsed config)
    (hr : requiredFieldsPresent config = true)
    (hd : parseFolderDate f.name = some d)
    (hp : photoStep f config = .ok (pp, plogs)) :
    processFolder n f = .accepted
      { id := "bubble-" ++ toString n
        title := (config.lookup "title").getD .null
        description := (config.lookup "description").getD .null
        location := (config.lookup "location").getD (.str "")
        photo := pp
        date := f.name
        folderName := f.name
        hasPhoto := hasPhotoTrue config
        rawDate := d.isoformat
        size := 150
        x := 0
        y := 50 }
      (plogs ++
        ["SUCCESS: Added " ++ f.name ++ " - " ++ ((config.lookup "title").getD .null).pyStr]) := by
  simp [processFolder, hm, hc, hr, hd, hp]

theorem scanLoop_fst (fs : List Folder) : ∀ acc : List Bubble,
    (scanLoop acc fs).1 = acc ++ scanRecords acc.length fs := by
  induction fs with
  | nil => intro acc; simp [scanLoop, scanRecords]
  | cons f fs ih =>
    intro acc
    cases h : processFolder acc.length f with
    | accepted b logs =>
      have hrec := ih (acc ++ [b])
      simp only [scanLoop, scanRecords, h]
      rw [hrec]
      simp
    | rejected logs =>
      simp only [scanLoop, scanRecords, h]
      exact ih acc

theorem scanLoop_snd_mem {g : Folder} {logs : List String}
    (hrej : processFolder 0 g = .rejected logs) :
    ∀ (fs : List Folder) (acc : List Bubble), g ∈ fs → ∀ l ∈ logs, l ∈ (scanLoop acc fs).2 := by
  intro fs
  induction fs with
  | nil => simp
  | cons f fs ih =>
    intro acc hg l hl
    rcases List.mem_cons.mp hg with heq | hmem
    · subst heq
      have hk : processFolder acc.length g = .rejected logs :=
        processFolder_rejected_indep hrej acc.length
      simp only [scanLoop, hk]
      simp only [List.mem_append]
      exact Or.inl hl
    · cases h : processFolder acc.length f with
      | accepted b lg =>
        simp only [scanLoop, h, List.mem_append]
        exact Or.inr (ih (acc ++ [b]) hmem l hl)
      | rejected lg =>
        simp only [scanLoop, h, List.mem_append]
        exact Or.inr (ih acc hmem l hl)

theorem mem_scanRecords {b : Bubble} : ∀ {k : Nat} {fs : List Folder},
    b ∈ scanRecords k fs → ∃ f ∈ fs, ∃ n logs, processFolder n f = .accepted b logs := by
  intro k fs
  induction fs generalizing k with
  | nil => simp [scanRecords]
  | cons f fs ih =>
    intro hb
    cases h : processFolder k f with
    | accepted b2 logs =>
      simp only [scanRecords, h] at hb
      rcases List.mem_cons.mp hb with heq | hmem
      · exact ⟨f, List.mem_cons_self f fs, k, logs, by rw [h, heq]⟩
      · obtain ⟨f2, hf2, n, lg, hacc⟩ := ih hmem
        exact ⟨f2, List.mem_cons_of_mem f hf2, n, lg, hacc⟩
    | rejected logs =>
      simp only [scanRecords, h] at hb
      obtain ⟨f2, hf2, n, lg, hacc⟩ := ih hb
      exact ⟨f2, List.mem_cons_of_mem f hf2, n, lg, hacc⟩

theorem accepted_folderName {n : Nat} {f : Folder} {b : Bubble} {logs : List String}
    (h : processFolder n f = .accepted b logs) : b.folderName = f.name := by
  obtain ⟨-, config, -, -, d, -, pp, plogs, -, hbeq, -⟩ := processFolder_accepted_inv h
  rw [hbeq]

theorem scanRecords_names_sublist : ∀ (k : Nat) (fs : List Folder),
    ((scanRecords k fs).map Bubble.folderName).Sublist (fs.map Folder.name) := by
  intro k fs
  induction fs generalizing k with
  | nil => simp [scanRecords]
  | cons f fs ih =>
    cases h : processFolder k f with
    | accepted b logs =>
      simp only [scanRecords, h, List.map_cons]
      rw [accepted_folderName h]
      exact List.Sublist.cons₂ f.name (ih (k + 1))
    | rejected logs =>
      simp only [scanRecords, h, List.map_cons]
      exact List.Sublist.cons f.name (ih k)

theorem accepted_id {n : Nat} {f : Folder} {b : Bubble} {logs : List String}
    (h : processFolder n f = .accepted b logs) : b.id = "bubble-" ++ toString n := by
  obtain ⟨-, config, -, -, d, -, pp, plogs, -, hbeq, -⟩ := processFolder_accepted_inv h
  rw [hbeq]

theorem scanRecords_map_id : ∀ (k : Nat) (fs : List Folder),
    (scanRecords k fs).map Bubble.id =
      (List.range' k (scanRecords k fs).length).map (fun i => "bubble-" ++ toString i) := by
  intro k fs
  induction fs generalizing k with
  | nil => simp [scanRecords]
  | cons f fs ih =>
    cases h : processFolder k f with
    | accepted b logs =>
      have hcons : scanRecords k (f :: fs) = b :: scanRecords (k + 1) fs := by
        simp only [scanRecords, h]
      rw [hcons]
      simp only [List.map_cons, List.length_cons, List.range'_succ, accepted_id h]
      rw [ih (k + 1)]
    | rejected logs =>
      have hcons : scanRecords k (f :: fs) = scanRecords k fs := by
        simp only [scanRecords, h]
      rw [hcons]
      exact ih k

/-! ### Sorting lemmas for sortByName -/

theorem mem_insertByName {x f : Folder} : ∀ {l : List Folder},
    x ∈ insertByName f l ↔ x = f ∨ x ∈ l := by
  intro l
  induction l with
  | nil => simp [insertByName]
  | cons g gs ih =>
    by_cases hlt : f.name < g.name
    · simp [insertByName, hlt]
    · simp only [insertByName, if_neg hlt, List.mem_cons, ih]
      tauto

theorem insertByName_pairwise {f : Folder} : ∀ {l : List Folder},
    l.Pairwise (fun a b => a.name ≤ b.name) →
    (insertByName f l).Pairwise (fun a b => a.name ≤ b.name) := by
  intro l
  induction l with
  | nil => intro _; simp [insertByName]
  | cons g gs ih =>
    intro hp
    rw [List.pairwise_cons] at hp
    obtain ⟨hg, hgs⟩ := hp
    by_cases hlt : f.name < g.name
    · simp only [insertByName, if_pos hlt]
      refine List.Pairwise.cons ?_ (List.Pairwise.cons hg hgs)
      intro x hx
      rcases List.mem_cons.mp hx with rfl | hx2
      · exact le_of_lt hlt
      · exact le_trans (le_of_lt hlt) (hg x hx2)
    · simp only [insertByName, if_neg hlt]
      refine List.Pairwise.cons ?_ (ih hgs)
      intro x hx
      rcases mem_insertByName.mp hx with rfl | hx2
      · exact le_of_not_lt hlt
      · exact hg x hx2

theorem sortByName_sorted (l : List Folder) :
    (sortByName l).Pairwise (fun a b => a.name ≤ b.name) := by
  suffices h : ∀ (l acc : List Folder), acc.Pairwise (fun a b => a.name ≤ b.name) →
      (l.foldl (fun acc f => insertByName f acc) acc).Pairwise (fun a b => a.name ≤ b.name) by
    exact h l [] (by simp)
  intro l
  induction l with
  | nil => intro acc hacc; simpa using hacc
  | cons f l ih =>
    intro acc hacc
    rw [List.foldl_cons]
    exact ih (insertByName f acc) (insertByName_pairwise hacc)

theorem mem_sortByName {x : Folder} {l : List Folder} : x ∈ sortByName l ↔ x ∈ l := by
  suffices h : ∀ (l acc : List Folder) (x : Folder),
      (x ∈ l.foldl (fun acc f => insertByName f acc) acc ↔ x ∈ acc ∨ x ∈ l) by
    have := h l [] x
    simpa [sortByName] using this
  intro l
  induction l with
  | nil => intro acc x; simp
  | cons f l ih =>
    intro acc x
    rw [List.foldl_cons, ih (insertByName f acc) x, mem_insertByName]
    simp only [List.mem_cons]
    tauto

theorem insertByName_of_lt {f : Folder} : ∀ {l : List Folder},
    (∀ x ∈ l, f.name < x.name) → insertByName f l = f :: l := by
  intro l
  cases l with
  | nil => intro _; rfl
  | cons g gs =>
    intro h
    simp only [insertByName, if_pos (h g (List.mem_cons_self g gs))]

theorem filter_insertByName (q : Folder → Bool) {f : Folder} : ∀ {l : List Folder},
    l.Pairwise (fun a b => a.name ≤ b.name) →
    (insertByName f l).filter q =
      if q f then insertByName f (l.filter q) else l.filter q := by
  intro l
  induction l with
  | nil =>
    intro _
    cases hq : q f <;> simp [insertByName, List.filter, hq]
  | cons g gs ih =>
    intro hp
    rw [List.pairwise_cons] at hp
    obtain ⟨hg, hgs⟩ := hp
    by_cases hlt : f.name < g.name
    · simp only [insertByName, if_pos hlt]
      cases hqf : q f with
      | false => simp [List.filter_cons, hqf]
      | true =>
        have hall : ∀ x ∈ (g :: gs).filter q, f.name < x.name := by
          intro x hx
          have hx2 := (List.mem_filter.mp hx).1
          rcases List.mem_cons.mp hx2 with rfl | hx3
          · exact hlt
          · exact lt_of_lt_of_le hlt (hg x hx3)
        rw [List.filter_cons, if_pos hqf, if_pos rfl, insertByName_of_lt hall]
    · simp only [insertByName, if_neg hlt]
      rw [List.filter_cons, List.filter_cons, ih hgs]
      have hins : insertByName f (g :: List.filter q gs) = g :: insertByName f (List.filter q gs) := by
        simp only [insertByName, if_neg hlt]
      cases hqf : q f <;> cases hqg : q g <;> simp [hqf, hqg, hins]

theorem sortByName_filter (q : Folder → Bool) (l : List Folder) :
    (sortByName l).filter q = sortByName (l.filter q) := by
  suffices h : ∀ (l acc : List Folder), acc.Pairwise (fun a b => a.name ≤ b.name) →
      (l.foldl (fun a f => insertByName f a) acc).filter q =
        (l.filter q).foldl (fun a f => insertByName f a) (acc.filter q) by
    have := h l [] (by simp)
    simpa [sortByName] using this
  intro l
  induction l with
  | nil => intro acc _; simp
  | cons f l ih =>
    intro acc hacc
    have hsort : ∀ (m : List Folder), m.Pairwise (fun a b => a.name ≤ b.name) →
        (l.foldl (fun a f => insertByName f a) m).filter q =
          (l.filter q).foldl (fun a f => insertByName f a) (m.filter q) := fun m hm => ih m hm
    rw [List.foldl_cons, hsort (insertByName f acc) (insertByName_pairwise hacc),
      filter_insertByName q hacc, List.filter_cons]
    cases hqf : q f <;> simp [hqf]

/-! ### Scan-level helper lemmas -/

theorem folderAccepted_false {n : Nat} {f : Folder} {logs : List String}
    (h : processFolder n f = .rejected logs) : folderAccepted f = false := by
  cases hfa : folderAccepted f
  · rfl
  · obtain ⟨b2, l2, h2⟩ := (folderAccepted_iff n).mp hfa
    rw [h] at h2
    cases h2

theorem scanRecords_filter_accepted : ∀ (k : Nat) (fs : List Folder),
    scanRecords k (fs.filter folderAccepted) = scanRecords k fs := by
  intro k fs
  induction fs generalizing k with
  | nil => simp
  | cons f fs ih =>
    cases h : processFolder k f with
    | accepted b logs =>
      have hacc : folderAccepted f = true := (folderAccepted_iff k).mpr ⟨b, logs, h⟩
      rw [List.filter_cons, if_pos hacc]
      simp only [scanRecords, h]
      rw [ih (k + 1)]
    | rejected logs =>
      have hacc : folderAccepted f = false := folderAccepted_false h
      rw [List.filter_cons]
      simp only [hacc, Bool.false_eq_true, if_false]
      simp only [scanRecords, h]
      exact ih k

theorem scan_records_def (folders : List Folder) :
    (scan_bubbles_folder (some folders)).1 = scanRecords 0 (sortByName folders) := by
  simp only [scan_bubbles_folder]
  rw [scanLoop_fst]
  simp

theorem scan_records_eq_filter_accepted (folders : List Folder) :
    (scan_bubbles_folder (some folders)).1 =
      (scan_bubbles_folder (some (folders.filter folderAccepted))).1 := by
  rw [scan_records_def, scan_records_def, ← sortByName_filter, scanRecords_filter_accepted]

/-- The photo resolution cannot raise when the photo value, if present and
truthy, is a string. -/
theorem photoStep_ok_of {f : Folder} {config : List (String × JValue)}
    (hphoto : ∀ v, config.lookup "photo" = some v → v.truthy = true → ∃ p, v = JValue.str p) :
    ∃ pp plogs, photoStep f config = .ok (pp, plogs) := by
  unfold photoStep
  by_cases hhp : hasPhotoTrue config = true
  · simp only [hhp, if_true]
    cases hlk : config.lookup "photo" with
    | none =>
      simp only [hlk, Option.getD_none]
      have htr : JValue.null.truthy = false := rfl
      simp only [htr, Bool.false_eq_true, if_false]
      cases hfind : autoDetectPhoto f.files <;> simp [hfind]
    | some v =>
      simp only [hlk, Option.getD_some]
      cases htr : v.truthy with
      | false =>
        simp only [htr, Bool.false_eq_true, if_false]
        cases hfind : autoDetectPhoto f.files <;> simp [hfind]
      | true =>
        obtain ⟨p, rfl⟩ := hphoto v hlk htr
        simp only [htr, if_true]
        cases hmem : f.files.contains p <;> simp [hmem]
  · simp [hhp]

theorem scanRecords_filter_name {f : Folder} (hacc : folderAccepted f = true) :
    ∀ (k : Nat) {fs : List Folder}, (fs.map Folder.name).Nodup → f ∈ fs →
    ∃ b n logs, processFolder n f = .accepted b logs ∧
      (scanRecords k fs).filter (fun b2 => b2.folderName == f.name) = [b] := by
  intro k fs
  induction fs generalizing k with
  | nil => simp
  | cons g gs ih =>
    intro hnd hf
    rw [List.map_cons, List.nodup_cons] at hnd
    obtain ⟨hgnot, hnd2⟩ := hnd
    rcases List.mem_cons.mp hf with rfl | hf2
    · obtain ⟨b, logs, hb⟩ := (folderAccepted_iff k).mp hacc
      have hcons : scanRecords k (f :: gs) = b :: scanRecords (k + 1) gs := by
        simp only [scanRecords, hb]
      rw [hcons, List.filter_cons]
      have hbn : (b.folderName == f.name) = true := by
        simp [accepted_folderName hb]
      rw [if_pos hbn]
      have hrest : (scanRecords (k + 1) gs).filter (fun b2 => b2.folderName == f.name) = [] := by
        rw [List.filter_eq_nil_iff]
        intro b2 hb2 hbeq
        rw [beq_iff_eq] at hbeq
        have hsubm : b2.folderName ∈ gs.map Folder.name :=
          List.Sublist.mem (List.mem_map_of_mem Bubble.folderName hb2)
            (scanRecords_names_sublist (k + 1) gs)
        rw [hbeq] at hsubm
        exact hgnot hsubm
      rw [hrest]
      exact ⟨b, k, logs, hb, rfl⟩
    · have hfname : f.name ∈ gs.map Folder.name := List.mem_map_of_mem Folder.name hf2
      have hne : g.name ≠ f.name := fun h => hgnot (h ▸ hfname)
      cases hg : processFolder k g with
      | accepted b2 logs2 =>
        have hcons : scanRecords k (g :: gs) = b2 :: scanRecords (k + 1) gs := by
          simp only [scanRecords, hg]
        rw [hcons, List.filter_cons]
        have hcond : (b2.folderName == f.name) = false := by
          simp [accepted_folderName hg]
          exact hne
        rw [hcond]
        simp only [Bool.false_eq_true, if_false]
        exact ih (k + 1) hnd2 hf2
      | rejected logs2 =>
        have hcons : scanRecords k (g :: gs) = scanRecords k gs := by
          simp only [scanRecords, hg]
        rw [hcons]
        exact ih k hnd2 hf2

theorem no_record_of_rejected {folders : List Folder} {g : Folder} {logs : List String}
    (hnodup : (folders.map Folder.name).Nodup)
    (hg : g ∈ folders)
    (hrej : processFolder 0 g = .rejected logs) :
    ∀ b ∈ (scan_bubbles_folder (some folders)).1, b.folderName ≠ g.name := by
  intro b hb hbg
  rw [scan_records_def] at hb
  obtain ⟨f2, hf2, n, lg, hacc⟩ := mem_scanRecords hb
  have hf2mem : f2 ∈ folders := mem_sortByName.mp hf2
  have hname : f2.name = g.name := by
    rw [← accepted_folderName hacc]
    exact hbg
  have hfg : f2 = g := List.inj_on_of_nodup_map hnodup hf2mem hg hname
  subst hfg
  have hfalse := folderAccepted_false hrej
  have htrue := (folderAccepted_iff n).mpr ⟨b, lg, hacc⟩
  rw [hfalse] at htrue
  exact Bool.noConfusion htrue

theorem scan_log_of_rejected {folders : List Folder} {g : Folder} {logs : List String}
    (hg : g ∈ folders) (hrej : processFolder 0 g = .rejected logs) :
    ∀ l ∈ logs, l ∈ (scan_bubbles_folder (some folders)).2 := by
  intro l hl
  simp only [scan_bubbles_folder]
  have hmem : g ∈ sortByName folders := mem_sortByName.mpr hg
  exact List.mem_cons_of_mem _ (scanLoop_snd_mem hrej (sortByName folders) [] hmem l hl)

theorem processFolder_missing_fields {g : Folder} {config : List (String × JValue)} (n : Nat)
    (hname : matchesNamePattern g.name = true)
    (hconf : g.config = .parsed config)
    (hmiss : requiredFieldsPresent config = false) :
    processFolder n g =
      .rejected ["WARNING: Skipping " ++ g.name ++ " - missing required fields"] := by
  simp [processFolder, hname, hconf, hmiss]

theorem processFolder_decode_error {g : Folder} (n : Nat)
    (hname : matchesNamePattern g.name = true)
    (hconf : g.config = .parseError) :
    processFolder n g = .rejected ["ERROR: Error parsing config.json in " ++ g.name] := by
  simp [processFolder, hname, hconf]

theorem insertByName_perm (f : Folder) : ∀ (l : List Folder), List.Perm (insertByName f l) (f :: l) := by
  intro l
  induction l with
  | nil => exact List.Perm.refl _
  | cons g gs ih =>
    by_cases hlt : f.name < g.name
    · simp only [insertByName, if_pos hlt]
      exact List.Perm.refl _
    · simp only [insertByName, if_neg hlt]
      exact List.Perm.trans (List.Perm.cons g ih) (List.Perm.swap f g gs)

theorem sortByName_perm (l : List Folder) : List.Perm (sortByName l) l := by
  suffices h : ∀ (l acc : List Folder),
      List.Perm (l.foldl (fun a f => insertByName f a) acc) (acc ++ l) by
    simpa [sortByName] using h l []
  intro l
  induction l with
  | nil => intro acc; simp
  | cons f l ih =>
    intro acc
    rw [List.foldl_cons]
    refine List.Perm.trans (ih (insertByName f acc)) ?_
    refine List.Perm.trans ((insertByName_perm f acc).append_right l) ?_
    exact List.perm_middle.symm

theorem sortByName_names_nodup {folders : List Folder}
    (hnodup : (folders.map Folder.name).Nodup) :
    ((sortByName folders).map Folder.name).Nodup :=
  (((sortByName_perm folders).map Folder.name).symm).nodup hnodup

/-! ### calculate_positions lemmas -/

theorem calculate_positions_length (bs : List Bubble) :
    (calculate_positions bs).length = bs.length := by
  cases bs with
  | nil => rfl
  | cons b bs2 => simp [calculate_positions]

theorem calculate_positions_getElem (bs : List Bubble) (i : Nat) (hi : i < bs.length)
    (hi2 : i < (calculate_positions bs).length) :
    (calculate_positions bs)[i] =
      { bs[i] with x := 10 + ((i : ℚ) / ((max 1 (bs.length - 1) : Nat) : ℚ)) * 80 } := by
  cases bs with
  | nil => simp at hi
  | cons b bs2 =>
    simp only [calculate_positions]
    rw [List.getElem_mapIdx]

theorem calculate_positions_getElem_opt (bs : List Bubble) (i : Nat) :
    (calculate_positions bs)[i]? = bs[i]?.map
      (fun b => { b with x := 10 + ((i : ℚ) / ((max 1 (bs.length - 1) : Nat) : ℚ)) * 80 }) := by
  by_cases hi : i < bs.length
  · have hi2 : i < (calculate_positions bs).length := by
      rw [calculate_positions_length]
      exact hi
    rw [List.getElem?_eq_getElem hi2, List.getElem?_eq_getElem hi]
    rw [calculate_positions_getElem bs i hi hi2]
    rfl
  · have h1 : (calculate_positions bs)[i]? = none := by
      rw [List.getElem?_eq_none]
      rw [calculate_positions_length]
      omega
    have h2 : bs[i]? = none := by
      rw [List.getElem?_eq_none]
      omega
    rw [h1, h2]
    rfl

/-! ### Sample concrete inputs used by the witnesses -/

/-- Sample parsed config with all required fields and an explicit photo. -/
def sampleConfig : List (String × JValue) :=
  [("title", .str "t"), ("description", .str "d"), ("has_photo", .str "True"),
    ("photo", .str "p.jpg")]

/-- Sample valid folder whose photo file exists. -/
def sampleFolder : Folder :=
  { name := "2025-01-02T03-04-05", config := .parsed sampleConfig, files := ["p.jpg"] }

/-- Record produced for sampleFolder when it is the first accepted folder. -/
def sampleBubble : Bubble :=
  { id := "bubble-0", title := .str "t", description := .str "d", location := .str "",
    photo := some "bubbles/2025-01-02T03-04-05/p.jpg", date := "2025-01-02T03-04-05",
    folderName := "2025-01-02T03-04-05", hasPhoto := true,
    rawDate := "2025-01-02T03:04:05", size := 150, x := 0, y := 50 }

/-- Folder whose name matches the pattern but is not a valid calendar date. -/
def badDateFolder : Folder :=
  { name := "2025-13-01T00-00-00", config := .parsed sampleConfig, files := ["p.jpg"] }

/-- Bubble used as raw input of calculate_positions in the witnesses. -/
def wBubble : Bubble :=
  { id := "bubble-0", title := .str "t", description := .str "d", location := .str "",
    photo := none, date := "2025-01-02T03-04-05", folderName := "2025-01-02T03-04-05",
    hasPhoto := false, rawDate := "2025-01-02T03:04:05", size := 150, x := 0, y := 50 }

/-! ### Claims -/

/-- Claim C7: when binding the server socket raises an OSError, start_server
handles it without re-raising (the result is an ok value, never a propagated
exception); errno 98 produces the actionable port-in-use message, any other
errno the generic startup error message, and the function then returns so the
process exits. -/
theorem claim_C7 :
    (start_server (ServerOutcome.bindError 98) =
      Except.ok ["ERROR: Port 8000 is already in use!",
        "   Try closing other applications or use a different port."]) ∧
    ∀ e : Int, e ≠ 98 → start_server (ServerOutcome.bindError e) =
      Except.ok ["ERROR: Error starting server"] := by
  constructor
  · rfl
  · intro e he
    simp [start_server, serverBody, he]

theorem claim_C7_witness :
    start_server (ServerOutcome.bindError 97) = Except.ok ["ERROR: Error starting server"] :=
  claim_C7.2 97 (by decide)

/-- Claim C4: identifiers are assigned in folder-sort order: the scan
processes the folders sorted lexicographically by name, so the output records
have non-decreasing folder names, and the i-th record of the output carries id
bubble-i. -/
theorem claim_C4 (folders : List Folder) :
    ((scan_bubbles_folder (some folders)).1.map Bubble.id =
      (List.range (scan_bubbles_folder (some folders)).1.length).map
        (fun i => "bubble-" ++ toString i)) ∧
    List.Pairwise (fun b1 b2 => b1.folderName ≤ b2.folderName)
      (scan_bubbles_folder (some folders)).1 := by
  constructor
  · rw [scan_records_def, scanRecords_map_id 0, List.range_eq_range']
  · rw [scan_records_def]
    have hsorted : List.Pairwise (fun a b : String => a ≤ b)
        ((sortByName folders).map Folder.name) :=
      List.pairwise_map.mpr (sortByName_sorted folders)
    have hsub := scanRecords_names_sublist 0 (sortByName folders)
    exact List.pairwise_map.mp (List.Pairwise.sublist hsub hsorted)

/-- Claim C10: calculate_positions returns the empty list unchanged; a
singleton list gets x = 10 (the left edge of the range, not the center); and
every computed x lies in the interval from 10 to 90. -/
theorem claim_C10 :
    calculate_positions [] = [] ∧
    (∀ b : Bubble, calculate_positions [b] = [{ b with x := 10 }]) ∧
    (∀ (bs : List Bubble), ∀ b ∈ calculate_positions bs, 10 ≤ b.x ∧ b.x ≤ 90) := by
  refine ⟨rfl, ?_, ?_⟩
  · intro b
    have h0 : (0:Nat) < [b].length := by simp
    have h02 : (0:Nat) < (calculate_positions [b]).length := by
      rw [calculate_positions_length]
      simp
    have hlen : (calculate_positions [b]).length = 1 := by
      rw [calculate_positions_length]
      rfl
    have hget := calculate_positions_getElem [b] 0 h0 h02
    have hx : (10:ℚ) + ((0 : ℚ) / ((max 1 ([b].length - 1) : Nat) : ℚ)) * 80 = 10 := by
      norm_num
    apply List.ext_getElem
    · rw [hlen]
      rfl
    · intro i hi1 hi2
      have hi0 : i = 0 := by
        rw [hlen] at hi1
        omega
      subst hi0
      rw [hget]
      simp only [List.getElem_singleton]
      rw [show ((0:Nat) : ℚ) = (0:ℚ) from rfl]
      rw [hx]
  · intro bs b hb
    obtain ⟨i, hi, hbi⟩ := List.mem_iff_getElem.mp hb
    have hi2 : i < bs.length := by
      rw [calculate_positions_length] at hi
      exact hi
    rw [calculate_positions_getElem bs i hi2 hi] at hbi
    have hmpos : (0:ℚ) < ((max 1 (bs.length - 1) : Nat) : ℚ) := by
      have h1 : (0:Nat) < max 1 (bs.length - 1) := lt_of_lt_of_le Nat.zero_lt_one (le_max_left _ _)
      exact_mod_cast h1
    have hile : (i : ℚ) ≤ ((max 1 (bs.length - 1) : Nat) : ℚ) := by
      have : i ≤ max 1 (bs.length - 1) :=
        le_trans (by omega) (le_max_right 1 (bs.length - 1))
      exact_mod_cast this
    have hdiv0 : (0:ℚ) ≤ (i : ℚ) / ((max 1 (bs.length - 1) : Nat) : ℚ) := by positivity
    have hdiv1 : (i : ℚ) / ((max 1 (bs.length - 1) : Nat) : ℚ) ≤ 1 := by
      rw [div_le_one hmpos]
      exact hile
    rw [← hbi]
    constructor
    · show (10:ℚ) ≤ 10 + ((i : ℚ) / ((max 1 (bs.length - 1) : Nat) : ℚ)) * 80
      nlinarith
    · show (10:ℚ) + ((i : ℚ) / ((max 1 (bs.length - 1) : Nat) : ℚ)) * 80 ≤ 90
      nlinarith

theorem claim_C10_witness :
    10 ≤ ({ wBubble with x := (10:ℚ) } : Bubble).x ∧
      ({ wBubble with x := (10:ℚ) } : Bubble).x ≤ 90 :=
  claim_C10.2.2 [wBubble] { wBubble with x := (10:ℚ) }
    (by rw [claim_C10.2.1 wBubble]; exact List.mem_singleton_self _)

/-- Claim C3: for a list of two or more records, after calculate_positions
the x values are non-decreasing in list order, the first x is 10 and the last
x is 90, so the positions span exactly the interval from 10 to 90 (the float
arithmetic is modelled exactly over ℚ). -/
theorem claim_C3 (bubbles : List Bubble) (h2 : 2 ≤ bubbles.length) :
    List.Pairwise (fun b1 b2 => b1.x ≤ b2.x) (calculate_positions bubbles) ∧
    (calculate_positions bubbles).head?.map Bubble.x = some 10 ∧
    (calculate_positions bubbles).getLast?.map Bubble.x = some 90 := by
  have hlen := calculate_positions_length bubbles
  have hm : max 1 (bubbles.length - 1) = bubbles.length - 1 := by omega
  have hmpos : (0:ℚ) < ((max 1 (bubbles.length - 1) : Nat) : ℚ) := by
    have h1 : (0:Nat) < max 1 (bubbles.length - 1) :=
      lt_of_lt_of_le Nat.zero_lt_one (le_max_left _ _)
    exact_mod_cast h1
  refine ⟨?_, ?_, ?_⟩
  · rw [List.pairwise_iff_getElem]
    intro i j hi hj hij
    have hi2 : i < bubbles.length := by omega
    have hj2 : j < bubbles.length := by omega
    rw [calculate_positions_getElem bubbles i hi2 hi,
      calculate_positions_getElem bubbles j hj2 hj]
    show (10:ℚ) + ((i : ℚ) / ((max 1 (bubbles.length - 1) : Nat) : ℚ)) * 80 ≤
      10 + ((j : ℚ) / ((max 1 (bubbles.length - 1) : Nat) : ℚ)) * 80
    gcongr
  · rw [List.head?_eq_getElem?, calculate_positions_getElem_opt,
      List.getElem?_eq_getElem (show 0 < bubbles.length by omega)]
    simp only [Option.map_some']
    congr 1
    show (10:ℚ) + ((0:ℚ) / ((max 1 (bubbles.length - 1) : Nat) : ℚ)) * 80 = 10
    norm_num
  · rw [List.getLast?_eq_getElem?, hlen, calculate_positions_getElem_opt,
      List.getElem?_eq_getElem (show bubbles.length - 1 < bubbles.length by omega)]
    simp only [Option.map_some']
    congr 1
    show (10:ℚ) + (((bubbles.length - 1 : Nat) : ℚ) /
      ((max 1 (bubbles.length - 1) : Nat) : ℚ)) * 80 = 90
    rw [hm]
    have hne : (((bubbles.length - 1 : Nat)) : ℚ) ≠ 0 := by
      have : (0:Nat) < bubbles.length - 1 := by omega
      exact_mod_cast Nat.pos_iff_ne_zero.mp this
    rw [div_self hne]
    norm_num

theorem claim_C3_witness :
    List.Pairwise (fun b1 b2 => b1.x ≤ b2.x) (calculate_positions [wBubble, wBubble]) ∧
    (calculate_positions [wBubble, wBubble]).head?.map Bubble.x = some 10 ∧
    (calculate_positions [wBubble, wBubble]).getLast?.map Bubble.x = some 90 :=
  claim_C3 [wBubble, wBubble] (by decide)

/-- Claim C5: every record of the output array is a Bubble, a structure with
exactly the fields id, title, description, location, photo, date, folderName,
hasPhoto, rawDate, size, x and y; its title and description are copied from
the config, location defaults to the empty string when absent, and date and
folderName both equal the folder name. -/
theorem claim_C5 (dir : Option (List Folder)) (b : Bubble)
    (hb : b ∈ (scan_bubbles_folder dir).1) :
    ∃ folders f config, dir = some folders ∧ f ∈ folders ∧
      f.config = ConfigFile.parsed config ∧
      config.lookup "title" = some b.title ∧
      config.lookup "description" = some b.description ∧
      b.location = (config.lookup "location").getD (JValue.str "") ∧
      b.date = f.name ∧ b.folderName = f.name ∧ b.size = 150 ∧ b.y = 50 := by
  cases dir with
  | none =>
    simp [scan_bubbles_folder] at hb
  | some folders =>
    rw [scan_records_def] at hb
    obtain ⟨f, hf, n, logs, hacc⟩ := mem_scanRecords hb
    obtain ⟨-, config, hc, hreq, d, -, pp, plogs, -, hbeq, -⟩ := processFolder_accepted_inv hacc
    subst hbeq
    simp only [requiredFieldsPresent, List.all_cons, List.all_nil, Bool.and_eq_true,
      Bool.and_true] at hreq
    obtain ⟨ht, hd2, -⟩ := hreq
    refine ⟨folders, f, config, rfl, mem_sortByName.mp hf, hc, ?_, ?_, rfl, rfl, rfl, rfl, rfl⟩
    · cases hlt : config.lookup "title" with
      | none => rw [hlt] at ht; simp at ht
      | some t => simp [hlt]
    · cases hld : config.lookup "description" with
      | none => rw [hld] at hd2; simp at hd2
      | some t => simp [hld]

theorem claim_C5_witness :
    ∃ folders f config, (some [sampleFolder] : Option (List Folder)) = some folders ∧
      f ∈ folders ∧ f.config = ConfigFile.parsed config ∧
      config.lookup "title" = some sampleBubble.title ∧
      config.lookup "description" = some sampleBubble.description ∧
      sampleBubble.location = (config.lookup "location").getD (JValue.str "") ∧
      sampleBubble.date = f.name ∧ sampleBubble.folderName = f.name ∧
      sampleBubble.size = 150 ∧ sampleBubble.y = 50 :=
  claim_C5 (some [sampleFolder]) sampleBubble (by decide)

/-- Claim C8: for an accepted folder the record's hasPhoto is true exactly
when the config value of has_photo is the JSON string True; any other value,
including the JSON boolean true, yields hasPhoto false and skips the photo
lookup entirely, leaving photo None, even though the key counts as present
for the required-field validation. -/
theorem claim_C8 (n : Nat) (f : Folder) (config : List (String × JValue)) (b : Bubble)
    (logs : List String)
    (hconf : f.config = ConfigFile.parsed config)
    (hacc : processFolder n f = .accepted b logs) :
    (b.hasPhoto = true ↔ config.lookup "has_photo" = some (JValue.str "True")) ∧
    (config.lookup "has_photo" ≠ some (JValue.str "True") → b.photo = none) := by
  obtain ⟨-, config2, hc2, -, d, -, pp, plogs, hps, hbeq, -⟩ := processFolder_accepted_inv hacc
  have hcc : config2 = config := by
    rw [hconf] at hc2
    injection hc2 with h
    exact h.symm
  rw [hcc] at hps hbeq
  subst hbeq
  constructor
  · show hasPhotoTrue config = true ↔ _
    rw [hasPhotoTrue]
    cases hlk : config.lookup "has_photo" with
    | none => simp
    | some v => simp [beq_iff_eq]
  · intro hne
    have hhp : hasPhotoTrue config = false := by
      rw [hasPhotoTrue]
      cases hlk : config.lookup "has_photo" with
      | none => simp
      | some v =>
        simp only [Option.getD_some, beq_eq_false_iff_ne, ne_eq]
        intro hv
        exact hne (by rw [hlk, hv])
    simp only [photoStep, hhp, Bool.false_eq_true, if_false] at hps
    simp only [Except.ok.injEq, Prod.mk.injEq] at hps
    exact hps.1.symm

/-- Concrete config whose has_photo is the JSON boolean true: the key is
present, so the required-field validation passes, but hasPhoto is false. -/
def boolPhotoConfig : List (String × JValue) :=
  [("title", .str "t"), ("description", .str "d"), ("has_photo", .bool true)]

/-- Folder carrying boolPhotoConfig. -/
def boolPhotoFolder : Folder :=
  { name := "2025-01-02T03-04-05", config := .parsed boolPhotoConfig, files := [] }

/-- Record produced for boolPhotoFolder. -/
def boolPhotoBubble : Bubble :=
  { id := "bubble-0", title := .str "t", description := .str "d", location := .str "",
    photo := none, date := "2025-01-02T03-04-05", folderName := "2025-01-02T03-04-05",
    hasPhoto := false, rawDate := "2025-01-02T03:04:05", size := 150, x := 0, y := 50 }

theorem claim_C8_witness :
    (boolPhotoBubble.hasPhoto = true ↔
      boolPhotoConfig.lookup "has_photo" = some (JValue.str "True")) ∧
    (boolPhotoConfig.lookup "has_photo" ≠ some (JValue.str "True") →
      boolPhotoBubble.photo = none) :=
  claim_C8 0 boolPhotoFolder boolPhotoConfig boolPhotoBubble
    ["SUCCESS: Added 2025-01-02T03-04-05 - t"] rfl (by decide)

/-- Claim C9: for an accepted folder with has_photo the string True and a
non-empty string photo value, the record's photo field is
bubbles/<folderName>/<photo> whether or not that file exists in the folder;
a missing file only adds a warning line, it never nulls the reference. -/
theorem claim_C9 (n : Nat) (f : Folder) (config : List (String × JValue)) (b : Bubble)
    (logs : List String) (p : String)
    (hconf : f.config = ConfigFile.parsed config)
    (hacc : processFolder n f = .accepted b logs)
    (hhp : config.lookup "has_photo" = some (JValue.str "True"))
    (hp : config.lookup "photo" = some (JValue.str p))
    (hpne : p ≠ "") :
    b.photo = some ("bubbles/" ++ f.name ++ "/" ++ p) ∧
    (f.files.contains p = false →
      ("WARNING: Photo " ++ p ++ " not found in " ++ f.name) ∈ logs) := by
  obtain ⟨-, config2, hc2, -, d, -, pp, plogs, hps, hbeq, hlogs⟩ := processFolder_accepted_inv hacc
  have hcc : config2 = config := by
    rw [hconf] at hc2
    injection hc2 with h
    exact h.symm
  rw [hcc] at hps hbeq hlogs
  have hhpt : hasPhotoTrue config = true := by
    rw [hasPhotoTrue, hhp]
    rfl
  have htr : (JValue.str p).truthy = true := by
    simp [JValue.truthy, hpne]
  simp only [photoStep, hhpt, if_true, hp, Option.getD_some, htr] at hps
  subst hbeq
  cases hmem : f.files.contains p with
  | true =>
    simp only [hmem, if_true] at hps
    simp only [Except.ok.injEq, Prod.mk.injEq] at hps
    refine ⟨hps.1.symm, ?_⟩
    intro hfalse
    simp at hfalse
  | false =>
    simp only [hmem, Bool.false_eq_true, if_false] at hps
    simp only [Except.ok.injEq, Prod.mk.injEq] at hps
    refine ⟨hps.1.symm, ?_⟩
    intro _
    rw [hlogs, ← hps.2]
    simp

/-- Folder whose configured photo file does not exist on disk. -/
def missingPhotoFolder : Folder :=
  { name := "2025-01-02T03-04-05", config := .parsed sampleConfig, files := [] }

/-- Record produced for missingPhotoFolder: the photo reference is kept. -/
def missingPhotoBubble : Bubble :=
  { id := "bubble-0", title := .str "t", description := .str "d", location := .str "",
    photo := some "bubbles/2025-01-02T03-04-05/p.jpg", date := "2025-01-02T03-04-05",
    folderName := "2025-01-02T03-04-05", hasPhoto := true,
    rawDate := "2025-01-02T03:04:05", size := 150, x := 0, y := 50 }

theorem claim_C9_witness :
    missingPhotoBubble.photo =
      some ("bubbles/" ++ missingPhotoFolder.name ++ "/" ++ "p.jpg") ∧
    (missingPhotoFolder.files.contains "p.jpg" = false →
      ("WARNING: Photo " ++ "p.jpg" ++ " not found in " ++ missingPhotoFolder.name) ∈
        ["WARNING: Photo p.jpg not found in 2025-01-02T03-04-05",
         "SUCCESS: Added 2025-01-02T03-04-05 - t"]) :=
  claim_C9 0 missingPhotoFolder sampleConfig missingPhotoBubble
    ["WARNING: Photo p.jpg not found in 2025-01-02T03-04-05",
     "SUCCESS: Added 2025-01-02T03-04-05 - t"] "p.jpg"
    rfl (by decide) (by decide) (by decide) (by decide)

/-- Claim C2: a folder whose config.json parses but lacks a required key
produces zero records (no output record carries its folder name), logs the
missing-required-fields warning, and is skipped without affecting the records
produced for the other folders: the scan of the directory equals the scan of
the directory with that folder removed. -/
theorem claim_C2 (folders : List Folder) (g : Folder) (config : List (String × JValue))
    (hnodup : (folders.map Folder.name).Nodup)
    (hg : g ∈ folders)
    (hname : matchesNamePattern g.name = true)
    (hconf : g.config = ConfigFile.parsed config)
    (hmiss : requiredFieldsPresent config = false) :
    (∀ b ∈ (scan_bubbles_folder (some folders)).1, b.folderName ≠ g.name) ∧
    ("WARNING: Skipping " ++ g.name ++ " - missing required fields")
      ∈ (scan_bubbles_folder (some folders)).2 ∧
    (scan_bubbles_folder (some folders)).1 =
      (scan_bubbles_folder (some (folders.filter (fun f2 => f2.name != g.name)))).1 := by
  have hrej := processFolder_missing_fields 0 hname hconf hmiss
  refine ⟨no_record_of_rejected hnodup hg hrej, ?_, ?_⟩
  · exact scan_log_of_rejected hg hrej _ (List.mem_singleton_self _)
  · rw [scan_records_eq_filter_accepted folders,
      scan_records_eq_filter_accepted (folders.filter (fun f2 => f2.name != g.name))]
    have hlist : folders.filter folderAccepted =
        (folders.filter (fun f2 => f2.name != g.name)).filter folderAccepted := by
      rw [List.filter_filter]
      apply List.filter_congr
      intro f2 hf2
      cases hacc : folderAccepted f2 with
      | false => simp
      | true =>
        have hne2 : f2.name ≠ g.name := by
          intro heq
          have hfg : f2 = g := List.inj_on_of_nodup_map hnodup hf2 hg heq
          rw [hfg] at hacc
          rw [folderAccepted_false hrej] at hacc
          exact Bool.noConfusion hacc
        simp [hne2]
    rw [hlist]

/-- Config that lacks the required description key. -/
def missingConfig : List (String × JValue) :=
  [("title", .str "t"), ("has_photo", .str "True")]

/-- Folder carrying missingConfig. -/
def missingFieldFolder : Folder :=
  { name := "2025-01-02T03-04-05", config := .parsed missingConfig, files := [] }

theorem claim_C2_witness :
    (∀ b ∈ (scan_bubbles_folder (some [missingFieldFolder])).1,
      b.folderName ≠ missingFieldFolder.name) ∧
    ("WARNING: Skipping " ++ missingFieldFolder.name ++ " - missing required fields")
      ∈ (scan_bubbles_folder (some [missingFieldFolder])).2 ∧
    (scan_bubbles_folder (some [missingFieldFolder])).1 =
      (scan_bubbles_folder (some ([missingFieldFolder].filter
        (fun f2 => f2.name != missingFieldFolder.name)))).1 :=
  claim_C2 [missingFieldFolder] missingFieldFolder missingConfig
    (by decide) (by decide) (by decide) rfl (by decide)

/-- Claim C6: a folder rejected inside the loop body, in particular one whose
config.json raises a JSON decode error, never aborts the scan: the records
returned equal those of the directory restricted to the accepted folders, and
the decode error is logged among the printed lines. -/
theorem claim_C6 (folders : List Folder) :
    (scan_bubbles_folder (some folders)).1 =
      (scan_bubbles_folder (some (folders.filter folderAccepted))).1 ∧
    (∀ g ∈ folders, matchesNamePattern g.name = true →
      g.config = ConfigFile.parseError →
      ("ERROR: Error parsing config.json in " ++ g.name) ∈
        (scan_bubbles_folder (some folders)).2) := by
  refine ⟨scan_records_eq_filter_accepted folders, ?_⟩
  intro g hg hname hconf
  exact scan_log_of_rejected hg (processFolder_decode_error 0 hname hconf) _
    (List.mem_singleton_self _)

/-- Folder whose config.json is present but not valid JSON. -/
def badJsonFolder : Folder :=
  { name := "2025-01-02T03-04-05", config := .parseError, files := [] }

theorem claim_C6_witness :
    ("ERROR: Error parsing config.json in " ++ badJsonFolder.name) ∈
      (scan_bubbles_folder (some [badJsonFolder])).2 :=
  (claim_C6 [badJsonFolder]).2 badJsonFolder (by decide) (by decide) rfl

/-- Claim C1 counterexample: the folder named 2025-13-01T00-00-00 matches the
naming regex and carries a complete valid config, yet the scan produces zero
records, because strptime rejects month 13 with a ValueError, so the claim as
stated is false without a valid-calendar-date hypothesis. -/
theorem claim_C1_counterexample :
    matchesNamePattern badDateFolder.name = true ∧
    badDateFolder.config = ConfigFile.parsed sampleConfig ∧
    requiredFieldsPresent sampleConfig = true ∧
    (scan_bubbles_folder (some [badDateFolder])).1 = [] := by
  refine ⟨by decide, rfl, by decide, by decide⟩

/-- Claim C1 (amended): for a directory with distinct folder names, a folder
whose name matches the naming pattern, whose config.json parses with the
required keys, whose name additionally parses as a valid calendar date-time
(strptime raises ValueError otherwise), and whose photo value is a string
whenever it is present and truthy (os.path.join raises TypeError otherwise),
contributes exactly one record, whose rawDate is the isoformat of the
datetime parsed from the folder name. -/
theorem claim_C1 (folders : List Folder) (f : Folder) (config : List (String × JValue))
    (d : DateTime)
    (hnodup : (folders.map Folder.name).Nodup)
    (hf : f ∈ folders)
    (hname : matchesNamePattern f.name = true)
    (hconf : f.config = ConfigFile.parsed config)
    (hreq : requiredFieldsPresent config = true)
    (hdate : parseFolderDate f.name = some d)
    (hphoto : ∀ v, config.lookup "photo" = some v → v.truthy = true →
      ∃ p, v = JValue.str p) :
    ∃ b, (scan_bubbles_folder (some folders)).1.filter
        (fun b2 => b2.folderName == f.name) = [b] ∧
      b.rawDate = d.isoformat := by
  obtain ⟨pp, plogs, hps⟩ := photoStep_ok_of (f := f) hphoto
  have hacc : folderAccepted f = true :=
    (folderAccepted_iff 0).mpr ⟨_, _, processFolder_accepted_of hname hconf hreq hdate hps⟩
  have hnd2 := sortByName_names_nodup hnodup
  have hmem : f ∈ sortByName folders := mem_sortByName.mpr hf
  obtain ⟨b, n, logs, hb, hfilter⟩ := scanRecords_filter_name hacc 0 hnd2 hmem
  refine ⟨b, ?_, ?_⟩
  · rw [scan_records_def]
    exact hfilter
  · obtain ⟨-, config2, -, -, d2, hd2, pp2, plogs2, -, hbeq, -⟩ := processFolder_accepted_inv hb
    have hdd : d = d2 := by
      rw [hdate] at hd2
      exact Option.some.inj hd2
    rw [hbeq, hdd]

theorem claim_C1_witness :
    ∃ b, (scan_bubbles_folder (some [sampleFolder])).1.filter
        (fun b2 => b2.folderName == sampleFolder.name) = [b] ∧
      b.rawDate = (⟨2025, 1, 2, 3, 4, 5⟩ : DateTime).isoformat :=
  claim_C1 [sampleFolder] sampleFolder sampleConfig ⟨2025, 1, 2, 3, 4, 5⟩
    (by decide) (by decide) (by decide) rfl (by decide) (by decide)
    (fun v hv htr => ⟨"p.jpg", by
      have h2 : sampleConfig.lookup "photo" = some (JValue.str "p.jpg") := by decide
      rw [h2] at hv
      exact (Option.some.inj hv).symm⟩)
